import Mathlib

/-!
# Verification of the FTX websocket connection client

A shallow embedding of the `Connection` class of `src/unnamed/part_000`
(the only source file of the repository besides a usage sample).

Modelling conventions:

* JavaScript timestamps (`+new Date`, milliseconds since epoch) are `Nat`
  values passed in explicitly as `now`.  The fields `pingAt` and `pongAt`
  are initialised to the falsy value `false` in the source; we encode the
  unset state as `0`, which coincides with how JavaScript coerces `false`
  in the numeric comparisons `pongAt > pingAt` and
  `lastMessageAt - pingAt < 5000`.
* Promises used purely as one-shot completion signals (`sub.done`) are
  modelled by their identity: every `new Promise` executed by
  `_subscribe` draws a fresh number from an allocation counter
  `nextSignal`.  Resolving a signal (`sub.doneHook()`) appends its number
  to `resolved`.
* The outbound wire (`this.ws.send(JSON.stringify(payload))`) is a list
  `wire` of messages in send order.  Caller-supplied payloads to
  `sendMessage` are identified by a numeric tag.
* JSON decoding is external to the system; `handleWSMessage` is
  parameterised by a partial decoder `parse : String → Option (Payload D)`
  where `none` models a `JSON.parse` throw (invalid JSON) and the router's
  payload `data` field is an opaque value of type `D` that is forwarded
  untouched.
* HMAC-SHA256 is external; `authenticate` is parameterised by
  `hmac : String → String → String` standing for
  `secret message ↦ hex(HMAC-SHA256(secret, message))`.
-/

/-- A decoded inbound frame as the router reads it: the `type`
discriminator, the optional `market`, the `channel` and the opaque
`data` field (absent JSON fields are `none`). -/
structure Payload (D : Type) where
  type : Option String
  market : Option String
  channel : String
  data : D
  deriving Repr, DecidableEq

/-- One entry of `this.subscriptions`.  `done` is the identity of the
completion promise currently stored in the `sub.done` field (see module
docstring). -/
structure Subscription where
  id : String
  channel : String
  market : Option String
  done : Nat
  deriving Repr, DecidableEq

/-- An outbound wire message.  `user tag` stands for an arbitrary
caller-supplied payload passed to `sendMessage`. -/
inductive OutMsg where
  | ping : OutMsg
  | login (key : Option String) (sign : String) (time : Nat)
      (subaccount : Option String) : OutMsg
  | sub (market : Option String) (channel : String) : OutMsg
  | user (tag : Nat) : OutMsg
  deriving Repr, DecidableEq

/-- The mutable state of a `Connection` instance, together with the
outbound wire log. -/
structure ConnState where
  key : Option String
  secret : String
  subaccount : Option String
  connected : Bool
  authenticated : Bool
  reconnecting : Bool
  subscriptions : List Subscription
  pingAt : Nat
  pongAt : Nat
  lastMessageAt : Nat
  nextSignal : Nat
  resolved : List Nat
  wire : List OutMsg
  deriving Repr, DecidableEq

/-- JavaScript truthiness of an optional string (`undefined` and `""`
are falsy). -/
def truthy : Option String → Bool
  | none => false
  | some s => s ≠ ""

/-- `toId(market, channel)`: the topic key, `channel` when `!market`,
else `market + '::' + channel`. -/
def toId (market : Option String) (channel : String) : String :=
  if truthy market then market.getD "" ++ "::" ++ channel else channel

/-- Outcome of a `sendMessage` call. -/
inductive SendOutcome where
  | sent (s : ConnState) : SendOutcome
  | queued (s : ConnState) (msg : OutMsg) : SendOutcome
  | notConnectedError (s : ConnState) : SendOutcome
  deriving Repr, DecidableEq

/-- `sendMessage(payload)`: throws `Not connected.` when neither
connected nor reconnecting; suspends on `this.afterReconnect` when
reconnecting (`queued` — the write happens once the reconnect-completed
signal fires); otherwise writes the serialised payload to the wire. -/
def sendMessage (s : ConnState) (msg : OutMsg) : SendOutcome :=
  if s.connected = false then
    if s.reconnecting = false then SendOutcome.notConnectedError s
    else SendOutcome.queued s msg
  else SendOutcome.sent { s with wire := s.wire ++ [msg] }

/-- `_subscribe(sub)`: replaces `sub.done` by a `new Promise` (a fresh
signal drawn from the allocation counter), then sends the
`{op:'subscribe', market, channel}` wire operation through
`sendMessage` (not awaited). -/
def subscribeStep (s : ConnState) (sub : Subscription) : ConnState × Subscription :=
  let sub' := { sub with done := s.nextSignal }
  let s' := { s with nextSignal := s.nextSignal + 1 }
  let s'' := match sendMessage s' (OutMsg.sub sub'.market sub'.channel) with
    | SendOutcome.sent t => t
    | SendOutcome.queued t _ => t
    | SendOutcome.notConnectedError t => t
  (s'', sub')

/-- Outcome of a `subscribe` call.  `created` carries the fresh
subscription's completion-signal identity (the returned `sub.done`);
`suspended` is the reconnecting path, parked on `this.afterReconnect`. -/
inductive SubscribeOutcome where
  | created (s : ConnState) (done : Nat) : SubscribeOutcome
  | duplicate (s : ConnState) : SubscribeOutcome
  | suspended (s : ConnState) : SubscribeOutcome
  | notConnectedError (s : ConnState) : SubscribeOutcome
  deriving Repr, DecidableEq

/-- `subscribe(channel, market)`: computes the topic key; throws
`Not connected.` when neither connected nor reconnecting; parks on
`afterReconnect` when reconnecting; refuses (logged, no effect) when the
key is already registered; else pushes a new subscription and runs
`_subscribe` on it. -/
def subscribe (s : ConnState) (channel : String) (market : Option String) :
    SubscribeOutcome :=
  let id := toId market channel
  if s.connected = false then
    if s.reconnecting = false then SubscribeOutcome.notConnectedError s
    else SubscribeOutcome.suspended s
  else if (s.subscriptions.map (fun t => t.id)).contains id then
    SubscribeOutcome.duplicate s
  else
    let sub : Subscription := { id := id, channel := channel, market := market, done := 0 }
    let p := subscribeStep s sub
    SubscribeOutcome.created
      { p.1 with subscriptions := s.subscriptions ++ [p.2] } p.2.done

/-- One iteration of the replay loop: run `_subscribe` on the next
stored subscription, collecting its mutated form. -/
def replayStep (acc : ConnState × List Subscription) (sub : Subscription) :
    ConnState × List Subscription :=
  let p := subscribeStep acc.1 sub
  (p.1, acc.2 ++ [p.2])

/-- The replay loop at the end of `reconnect`:
`this.subscriptions.forEach(sub => this._subscribe(sub))`, mutating each
stored subscription in place. -/
def replayAll (s : ConnState) : ConnState :=
  let r := s.subscriptions.foldl replayStep (s, [])
  { r.1 with subscriptions := r.2 }

/-- `terminate()`: forcibly closes the transport and clears the
connected/authenticated flags (subscriptions are kept). -/
def terminate (s : ConnState) : ConnState :=
  { s with authenticated := false, connected := false }

/-- Outcome of a heartbeat tick. -/
inductive PingResult where
  | terminated (s : ConnState) : PingResult
  | pinged (s : ConnState) : PingResult
  deriving Repr, DecidableEq

/-- One tick of the heartbeat timer (`ping`): if
`pingAt && pongAt > pingAt && pongAt - pingAt > STALE_TIMEOUT` the
connection is declared stale and terminated; otherwise `pingAt` is set
to the current time and a `{op:'ping'}` frame is sent (not awaited). -/
def ping (now : Nat) (s : ConnState) : PingResult :=
  if s.pingAt ≠ 0 ∧ s.pongAt > s.pingAt ∧ s.pongAt - s.pingAt > 2000 then
    PingResult.terminated (terminate s)
  else
    let s1 := { s with pingAt := now }
    match sendMessage s1 OutMsg.ping with
    | SendOutcome.sent t => PingResult.pinged t
    | SendOutcome.queued t _ => PingResult.pinged t
    | SendOutcome.notConnectedError t => PingResult.pinged t

/-- `authenticate()`: derives the signature
`hex(HMAC-SHA256(secret, date + 'websocket_login'))` (the timestamp is
concatenated as its decimal string), sends the login payload through
`sendMessage` without awaiting any response, and marks the connection
authenticated.  Modelled for the connected state, which holds at its
call site inside `connect`. -/
def authenticate (hmac : String → String → String) (now : Nat)
    (s : ConnState) : ConnState :=
  let sign := hmac s.secret (toString now ++ "websocket_login")
  let msg := OutMsg.login s.key sign now s.subaccount
  let s' := match sendMessage s msg with
    | SendOutcome.sent t => t
    | SendOutcome.queued t _ => t
    | SendOutcome.notConnectedError t => t
  { s' with authenticated := true }

/-- `_connect()`: no-op when already connected; otherwise opens the
transport and, on the open event, sets the connected flag and releases
the readiness signal. -/
def wsConnect (s : ConnState) : ConnState :=
  if s.connected then s else { s with connected := true }

/-- `connect()`: `await this._connect()`, then `authenticate()` when a
key is configured (`if(this.key)`). -/
def connect (hmac : String → String → String) (now : Nat)
    (s : ConnState) : ConnState :=
  let s1 := wsConnect s
  if truthy s1.key then authenticate hmac now s1 else s1

/-- `reconnect()` (triggered by the transport close event): sets the
reconnecting flag, resets `pingAt`/`pongAt` to `false`, recreates the
`afterReconnect` and `isReady` promises, waits 500 ms, reopens via
`connect()`, fires the reconnect-completed and readiness hooks, then
replays every stored subscription.  Senders that were suspended on
`afterReconnect` resume only after the synchronous replay loop finishes
(promise-resolution callbacks run as microtasks after the current job),
so their payloads (`pending`, in queue order) hit the wire last. -/
def reconnect (hmac : String → String → String) (now : Nat)
    (pending : List OutMsg) (s : ConnState) : ConnState :=
  let s0 := { s with reconnecting := true, pingAt := 0, pongAt := 0 }
  let s1 := connect hmac now s0
  let s2 := replayAll s1
  { s2 with wire := s2.wire ++ pending }

/-- How `handleWSMessage` leaves the handler: normally, or by an
uncaught `TypeError` (reading `payload.type` when `JSON.parse` threw and
`payload` stayed `undefined`). -/
inductive WSOutcome where
  | ok : WSOutcome
  | typeError : WSOutcome
  deriving Repr, DecidableEq

/-- Result of handling one inbound frame: the state after the handler,
the events emitted to listeners (topic key paired with the frame's
`data`), and how the handler exited. -/
structure WSResult (D : Type) where
  state : ConnState
  events : List (String × D)
  outcome : WSOutcome

/-- The literal pong frame `'{"type": "pong"}'`. -/
def PONG : String := "\x7b\"type\": \"pong\"\x7d"

/-- `handleWSMessage(e)`: records `lastMessageAt`; consumes the literal
pong frame when it arrives within 5000 ms of the last ping; otherwise
`JSON.parse`s the text (a throw is caught and logged, but `payload` is
then left `undefined` and the subsequent `payload.type` access raises a
`TypeError` out of the handler); `subscribed` frames resolve the
`doneHook` of every subscription whose `(market, channel)` matches;
`update`/`partial` frames emit the `data` field on the topic key; other
frames are logged as unhandled. -/
def handleWSMessage {D : Type} (parse : String → Option (Payload D))
    (now : Nat) (s : ConnState) (text : String) : WSResult D :=
  let s := { s with lastMessageAt := now }
  if text = PONG ∧ (now : Int) - (s.pingAt : Int) < 5000 then
    { state := { s with pongAt := now }, events := [], outcome := WSOutcome.ok }
  else
    match parse text with
    | none =>
      { state := s, events := [], outcome := WSOutcome.typeError }
    | some payload =>
      if payload.type = some "subscribed" then
        let hooks := (s.subscriptions.filter
          (fun sub => sub.market = payload.market ∧ sub.channel = payload.channel)).map
          (fun sub => sub.done)
        { state := { s with resolved := s.resolved ++ hooks }, events := [],
          outcome := WSOutcome.ok }
      else if payload.type = some "update" ∨ payload.type = some "partial" then
        { state := s,
          events := [(toId payload.market payload.channel, payload.data)],
          outcome := WSOutcome.ok }
      else
        { state := s, events := [], outcome := WSOutcome.ok }

/-- Run a sequence of `subscribe(channel, market)` calls from a given
state, threading the state through every outcome. -/
def runSubs (s : ConnState) (calls : List (String × Option String)) : ConnState :=
  calls.foldl
    (fun st c =>
      match subscribe st c.1 c.2 with
      | SubscribeOutcome.created t _ => t
      | SubscribeOutcome.duplicate t => t
      | SubscribeOutcome.suspended t => t
      | SubscribeOutcome.notConnectedError t => t)
    s

/-- A `Connection` right after the constructor ran (no credentials). -/
def initState : ConnState :=
  { key := none, secret := "", subaccount := none, connected := false,
    authenticated := false, reconnecting := false, subscriptions := [],
    pingAt := 0, pongAt := 0, lastMessageAt := 0, nextSignal := 0,
    resolved := [], wire := [] }

/-- The subscriptions as the replay loop leaves them: each stored entry
keeps its key, channel and market but has its `done` field replaced by
the next signal drawn from the allocation counter. -/
def replayDones (n : Nat) : List Subscription → List Subscription
  | [] => []
  | sub :: rest => { sub with done := n } :: replayDones (n + 1) rest

/-- The registered topic keys after a sequence of `subscribe` calls:
each call appends its topic key unless it is already present. -/
def addKeys (init : List String) (calls : List (String × Option String)) :
    List String :=
  calls.foldl
    (fun ks c => if ks.contains (toId c.2 c.1) then ks else ks ++ [toId c.2 c.1])
    init

theorem sendMessage_connected (s : ConnState) (msg : OutMsg)
    (h : s.connected = true) :
    sendMessage s msg = SendOutcome.sent { s with wire := s.wire ++ [msg] } := by
  simp [sendMessage, h]

theorem subscribeStep_connected (s : ConnState) (sub : Subscription)
    (h : s.connected = true) :
    subscribeStep s sub =
      ({ s with nextSignal := s.nextSignal + 1,
                wire := s.wire ++ [OutMsg.sub sub.market sub.channel] },
       { sub with done := s.nextSignal }) := by
  simp [subscribeStep, sendMessage, h]

theorem replay_foldl_spec (subs : List Subscription) (t : ConnState)
    (l : List Subscription) (h : t.connected = true) :
    subs.foldl replayStep (t, l) =
      ({ t with nextSignal := t.nextSignal + subs.length,
                wire := t.wire ++
                  subs.map (fun sub => OutMsg.sub sub.market sub.channel) },
       l ++ replayDones t.nextSignal subs) := by
  induction subs generalizing t l with
  | nil => simp [replayDones]
  | cons sub rest ih =>
    rw [List.foldl_cons]
    have hstep : replayStep (t, l) sub =
        ({ t with nextSignal := t.nextSignal + 1,
                  wire := t.wire ++ [OutMsg.sub sub.market sub.channel] },
         l ++ [{ sub with done := t.nextSignal }]) := by
      simp [replayStep, subscribeStep_connected t sub h]
    rw [hstep, ih _ _ (by simp [h])]
    simp [replayDones, List.append_assoc, Nat.add_assoc, Nat.add_comm 1 rest.length]

theorem replayAll_spec (s : ConnState) (h : s.connected = true) :
    replayAll s =
      { s with subscriptions := replayDones s.nextSignal s.subscriptions,
               nextSignal := s.nextSignal + s.subscriptions.length,
               wire := s.wire ++
                 s.subscriptions.map
                   (fun sub => OutMsg.sub sub.market sub.channel) } := by
  unfold replayAll
  rw [replay_foldl_spec s.subscriptions s [] h]
  simp


theorem replayDones_map_done (n : Nat) (subs : List Subscription) :
    (replayDones n subs).map (fun sub => sub.done) =
      List.range' n subs.length := by
  induction subs generalizing n with
  | nil => simp [replayDones]
  | cons sub rest ih => simp [replayDones, List.range'_succ, ih]

/-- C1: the claim says a non-JSON frame is logged, dispatches nothing,
and returns without raising.  The code does log and dispatch nothing,
but after the caught `JSON.parse` throw the variable `payload` is left
`undefined`, and the subsequent `payload.type` access raises a
`TypeError` out of the handler.  This theorem evaluates the handler at
the failing input `"oops"` (with a decoder that rejects it). -/
theorem handleWSMessage_invalid_json_raises :
    (handleWSMessage (fun _ => (none : Option (Payload Nat)))
      100 initState "oops").outcome = WSOutcome.typeError ∧
    (handleWSMessage (fun _ => (none : Option (Payload Nat)))
      100 initState "oops").events = [] := by
  exact ⟨rfl, rfl⟩

/-- C4: a `sendMessage` or `subscribe` call in a state that is neither
connected nor reconnecting fails with `NotConnectedError`, produces no
wire traffic, and returns the state unchanged (flags and subscription
list included). -/
theorem notConnected_rejects (s : ConnState) (msg : OutMsg)
    (channel : String) (market : Option String)
    (h1 : s.connected = false) (h2 : s.reconnecting = false) :
    sendMessage s msg = SendOutcome.notConnectedError s ∧
    subscribe s channel market = SubscribeOutcome.notConnectedError s := by
  simp [sendMessage, subscribe, h1, h2]

/-- C4 witness: the freshly constructed connection rejects both calls. -/
theorem notConnected_rejects_witness :
    sendMessage initState (OutMsg.user 0) = SendOutcome.notConnectedError initState ∧
    subscribe initState "ticker" none = SubscribeOutcome.notConnectedError initState :=
  notConnected_rejects initState (OutMsg.user 0) "ticker" none rfl rfl

/-- C8: a frame equal to the literal pong payload arriving less than
5000 ms after the recorded ping timestamp only records the pong
timestamp: the frame is never given to the decoder (the result holds
for every `parse`), resolves no subscription and emits no event. -/
theorem pong_frame_consumed {D : Type} (parse : String → Option (Payload D))
    (now : Nat) (s : ConnState)
    (hping : s.pingAt ≠ 0) (hlt : (now : Int) - (s.pingAt : Int) < 5000) :
    handleWSMessage parse now s PONG =
      { state := { s with lastMessageAt := now, pongAt := now },
        events := [], outcome := WSOutcome.ok } := by
  simp [handleWSMessage, hlt]

/-- C8 witness: a pong 100 ms after the ping is consumed. -/
theorem pong_frame_consumed_witness :
    handleWSMessage (fun _ => (none : Option (Payload Nat))) 200
        { initState with pingAt := 100 } PONG =
      { state := { { initState with pingAt := 100 } with
                   lastMessageAt := 200, pongAt := 200 },
        events := [], outcome := WSOutcome.ok } :=
  pong_frame_consumed _ 200 { initState with pingAt := 100 }
    (by decide) (by decide)

/-- C9: on a connected state, `authenticate` appends to the wire exactly
the login payload whose signature is
`hmac secret (decimal-string(t) ++ "websocket_login")` (with `hmac`
standing for hex HMAC-SHA256), marks the connection authenticated
immediately, and changes nothing else — no response is awaited. -/
theorem authenticate_sends_login (hmac : String → String → String)
    (now : Nat) (s : ConnState) (h : s.connected = true) :
    authenticate hmac now s =
      { s with authenticated := true,
               wire := s.wire ++
                 [OutMsg.login s.key
                   (hmac s.secret (toString now ++ "websocket_login"))
                   now s.subaccount] } := by
  simp [authenticate, sendMessage, h]

/-- A connected state with credentials, used to witness C9. -/
def stateAuth : ConnState :=
  { initState with connected := true, key := some "k", secret := "sec" }

/-- C9 witness: a concrete login send. -/
theorem authenticate_sends_login_witness :
    authenticate (fun sec m => sec ++ "|" ++ m) 42 stateAuth =
      { stateAuth with
        authenticated := true,
        wire := stateAuth.wire ++
          [OutMsg.login stateAuth.key
            ((fun sec m => sec ++ "|" ++ m) stateAuth.secret
              (toString 42 ++ "websocket_login"))
            42 stateAuth.subaccount] } :=
  authenticate_sends_login (fun sec m => sec ++ "|" ++ m) 42 stateAuth rfl

/-- C10 counterexample: at the empty market the claimed equation fails,
because `toId` treats an empty market exactly like an absent one:
`toId none ("" ++ "::" ++ "x")` is `"::x"` while `toId (some "") "x"`
is `"x"`. -/
theorem toId_empty_market_cex :
    ¬ (toId none ("" ++ "::" ++ "x") = toId (some "") "x") := by decide

/-- C10 (amended): for every nonempty market `M` and channel `C`, the
market-less request with channel `M ++ "::" ++ C` has the same topic
key as the pair `(M, C)`; consequently, once the pair's key is
registered, the market-less request is refused as a duplicate. -/
theorem toId_collision (M C : String) (h : M ≠ "") :
    toId none (M ++ "::" ++ C) = toId (some M) C ∧
    ∀ s : ConnState, s.connected = true →
      (s.subscriptions.map (fun t => t.id)).contains (toId (some M) C) = true →
      subscribe s (M ++ "::" ++ C) none = SubscribeOutcome.duplicate s := by
  have heq : toId none (M ++ "::" ++ C) = toId (some M) C := by
    simp [toId, truthy, h]
  refine ⟨heq, fun s hcon hmem => ?_⟩
  simp [subscribe, hcon, heq]
  simpa using hmem

/-- C10 witness: the collision at market `BTC-PERP`, channel `ticker`. -/
theorem toId_collision_witness :
    toId none ("BTC-PERP" ++ "::" ++ "ticker") = toId (some "BTC-PERP") "ticker" :=
  (toId_collision "BTC-PERP" "ticker" (by decide)).1

theorem ping_not_stale (now : Nat) (s : ConnState)
    (hc : ¬ (s.pingAt ≠ 0 ∧ s.pongAt > s.pingAt ∧ s.pongAt - s.pingAt > 2000)) :
    ∃ t, ping now s = PingResult.pinged t ∧ t.pingAt = now ∧
      (s.connected = true → t.wire = s.wire ++ [OutMsg.ping]) := by
  by_cases hcon : s.connected = true
  · refine ⟨{ s with pingAt := now, wire := s.wire ++ [OutMsg.ping] },
      ?_, rfl, fun _ => rfl⟩
    simp [ping, sendMessage, hc, hcon]
  · have hcf : s.connected = false := by simpa using hcon
    by_cases hrec : s.reconnecting = true
    · refine ⟨{ s with pingAt := now }, ?_, rfl, fun h2 => absurd h2 hcon⟩
      simp [ping, sendMessage, hc, hcf, hrec]
    · have hrf : s.reconnecting = false := by simpa using hrec
      refine ⟨{ s with pingAt := now }, ?_, rfl, fun h2 => absurd h2 hcon⟩
      simp [ping, sendMessage, hc, hcf, hrf]

/-- C6: a heartbeat tick forces termination exactly when the previous
ping timestamp is set, a pong was recorded strictly after it, and the
round trip exceeded 2000 ms; in particular a tick at which no pong has
arrived since the last ping (the asymmetric gap of the design) never
terminates: it records the tick time as the new ping timestamp and, when
connected, sends the ping frame. -/
theorem ping_stale_iff (now : Nat) (s : ConnState) :
    ((∃ t, ping now s = PingResult.terminated t) ↔
      (s.pingAt ≠ 0 ∧ s.pingAt < s.pongAt ∧ s.pongAt - s.pingAt > 2000)) ∧
    (s.pongAt ≤ s.pingAt →
      ∃ t, ping now s = PingResult.pinged t ∧ t.pingAt = now ∧
        (s.connected = true → t.wire = s.wire ++ [OutMsg.ping])) := by
  constructor
  · constructor
    · rintro ⟨t, ht⟩
      by_cases hc : s.pingAt ≠ 0 ∧ s.pongAt > s.pingAt ∧ s.pongAt - s.pingAt > 2000
      · exact ⟨hc.1, hc.2.1, hc.2.2⟩
      · obtain ⟨u, hu, -, -⟩ := ping_not_stale now s hc
        rw [ht] at hu
        cases hu
    · intro hc
      refine ⟨terminate s, ?_⟩
      unfold ping
      rw [if_pos ⟨hc.1, hc.2.1, hc.2.2⟩]
  · intro hle
    refine ping_not_stale now s ?_
    rintro ⟨-, hgt, -⟩
    exact absurd hgt (not_lt.mpr hle)

/-- C6 witness: at a tick where the ping is outstanding and no pong has
arrived (`pongAt = 0`), the connection is not declared stale; the ping
timestamp is refreshed and a ping frame goes out. -/
theorem ping_stale_iff_witness :
    ∃ t, ping 200 { initState with connected := true, pingAt := 100 } =
        PingResult.pinged t ∧ t.pingAt = 200 ∧
      ({ initState with connected := true, pingAt := 100 }.connected = true →
        t.wire = { initState with connected := true, pingAt := 100 }.wire ++
          [OutMsg.ping]) :=
  (ping_stale_iff 200 { initState with connected := true, pingAt := 100 }).2
    (by decide)

/-- C7: a decoded frame with type `update` or `partial` produces exactly
one event, on the topic key `toId market channel` (the channel alone
when the market is absent, else `market ++ "::" ++ channel`), carrying
exactly the frame's `data` field; the state only records the arrival
time, and no other event or subscription resolution happens. -/
theorem update_frame_emits_single_event {D : Type}
    (parse : String → Option (Payload D)) (now : Nat) (s : ConnState)
    (text : String) (p : Payload D)
    (hparse : parse text = some p)
    (htype : p.type = some "update" ∨ p.type = some "partial")
    (hpong : text ≠ PONG) :
    handleWSMessage parse now s text =
      { state := { s with lastMessageAt := now },
        events := [(toId p.market p.channel, p.data)],
        outcome := WSOutcome.ok } := by
  rcases htype with h | h <;>
    simp [handleWSMessage, hpong, hparse, h]

/-- C7 witness: a concrete `update` frame for `BTC-PERP`/`ticker`
delivers its data on topic `BTC-PERP::ticker` and nowhere else. -/
theorem update_frame_emits_single_event_witness :
    handleWSMessage
      (fun t => if t = "u" then
          some { type := some "update", market := some "BTC-PERP",
                 channel := "ticker", data := (1 : Nat) }
        else none)
      300 initState "u" =
      { state := { initState with lastMessageAt := 300 },
        events := [(toId (some "BTC-PERP") "ticker", (1 : Nat))],
        outcome := WSOutcome.ok } :=
  update_frame_emits_single_event _ 300 initState "u"
    { type := some "update", market := some "BTC-PERP",
      channel := "ticker", data := (1 : Nat) }
    rfl (Or.inl rfl) (by decide)

/-- A connected state holding one subscription whose completion signal
is number 0, with the allocation counter at 1. -/
def stateReplayCex : ConnState :=
  { initState with
    connected := true,
    subscriptions :=
      [{ id := "ticker", channel := "ticker", market := none, done := 0 }],
    nextSignal := 1 }

/-- C2 counterexample: the replay does not reuse the stored completion
signal.  After `replayAll` the subscription's `done` field holds a
freshly created promise (signal 1), not the signal 0 returned by the
initial subscribe call. -/
theorem replayAll_recreates_signal_cex :
    (replayAll stateReplayCex).subscriptions.map (fun sub => sub.done) ≠
      stateReplayCex.subscriptions.map (fun sub => sub.done) := by
  decide

/-- C2 (amended): the replay after a reconnection re-issues the
subscribe wire operation for every stored subscription, but recreates
each subscription's completion signal: every post-replay `done` field is
a freshly allocated signal (the numbers from `nextSignal` on, none of
which existed before), so a caller awaiting a completion signal obtained
before the replay is not resolved by the next acknowledgment. -/
theorem replayAll_reissues_with_fresh_signal (s : ConnState)
    (h : s.connected = true) :
    (replayAll s).wire = s.wire ++
      s.subscriptions.map (fun sub => OutMsg.sub sub.market sub.channel) ∧
    (replayAll s).subscriptions.map (fun sub => sub.done) =
      List.range' s.nextSignal s.subscriptions.length := by
  rw [replayAll_spec s h]
  exact ⟨by simp, by simp [replayDones_map_done]⟩

/-- The state of `stateReplayCex` with the allocation counter moved to
5, witnessing the amended replay statement. -/
def stateReplayW : ConnState := { stateReplayCex with nextSignal := 5 }

/-- C2 witness: one stored subscription, allocation counter at 5; the
replay sends its subscribe op and installs the fresh signal 5. -/
theorem replayAll_reissues_with_fresh_signal_witness :
    (replayAll stateReplayW).wire = stateReplayW.wire ++
      stateReplayW.subscriptions.map
        (fun sub => OutMsg.sub sub.market sub.channel) ∧
    (replayAll stateReplayW).subscriptions.map (fun sub => sub.done) =
      List.range' stateReplayW.nextSignal stateReplayW.subscriptions.length :=
  replayAll_reissues_with_fresh_signal stateReplayW rfl

theorem subscribe_connected_dup (s : ConnState) (channel : String)
    (market : Option String) (h : s.connected = true)
    (hmem : (s.subscriptions.map (fun t => t.id)).contains
      (toId market channel) = true) :
    subscribe s channel market = SubscribeOutcome.duplicate s := by
  have hmem' : ∃ x ∈ s.subscriptions, x.id = toId market channel := by
    simpa using hmem
  simp [subscribe, h, hmem']

theorem subscribe_connected_new (s : ConnState) (channel : String)
    (market : Option String) (h : s.connected = true)
    (hmem : (s.subscriptions.map (fun t => t.id)).contains
      (toId market channel) = false) :
    subscribe s channel market = SubscribeOutcome.created
      { s with
        subscriptions := s.subscriptions ++
          [{ id := toId market channel, channel := channel, market := market,
             done := s.nextSignal }],
        nextSignal := s.nextSignal + 1,
        wire := s.wire ++ [OutMsg.sub market channel] }
      s.nextSignal := by
  have hmem' : ¬ ∃ x ∈ s.subscriptions, x.id = toId market channel := by
    simpa using hmem
  simp [subscribe, h, hmem', subscribeStep_connected _ _ h]

theorem addKeys_nodup (calls : List (String × Option String))
    (init : List String) (h : init.Nodup) : (addKeys init calls).Nodup := by
  induction calls generalizing init with
  | nil => exact h
  | cons c rest ih =>
    by_cases hmem : init.contains (toId c.2 c.1) = true
    · have hm : toId c.2 c.1 ∈ init := by simpa using hmem
      have hstep : addKeys init (c :: rest) = addKeys init rest := by
        simp [addKeys, hm]
      rw [hstep]
      exact ih init h
    · have hf : init.contains (toId c.2 c.1) = false := by simpa using hmem
      have hnotmem : toId c.2 c.1 ∉ init := by simpa using hf
      have hstep : addKeys init (c :: rest) =
          addKeys (init ++ [toId c.2 c.1]) rest := by
        simp [addKeys, hnotmem]
      rw [hstep]
      refine ih _ ?_
      simp [List.nodup_append, h, hnotmem]

theorem runSubs_ids (calls : List (String × Option String)) (s : ConnState)
    (h : s.connected = true) :
    (runSubs s calls).subscriptions.map (fun t => t.id) =
      addKeys (s.subscriptions.map (fun t => t.id)) calls ∧
    (runSubs s calls).connected = true := by
  induction calls generalizing s with
  | nil => exact ⟨rfl, h⟩
  | cons c rest ih =>
    by_cases hmem : (s.subscriptions.map (fun t => t.id)).contains
        (toId c.2 c.1) = true
    · have hmem' : ∃ a ∈ s.subscriptions, a.id = toId c.2 c.1 := by
        simpa using hmem
      have hstep : runSubs s (c :: rest) = runSubs s rest := by
        simp [runSubs, subscribe_connected_dup s c.1 c.2 h hmem]
      have hkeys : addKeys (s.subscriptions.map (fun t => t.id)) (c :: rest) =
          addKeys (s.subscriptions.map (fun t => t.id)) rest := by
        simp [addKeys, hmem']
      rw [hstep, hkeys]
      exact ih s h
    · have hf : (s.subscriptions.map (fun t => t.id)).contains
          (toId c.2 c.1) = false := by simpa using hmem
      have hneg : ¬ ∃ a ∈ s.subscriptions, a.id = toId c.2 c.1 := by
        simpa using hf
      have hstep : runSubs s (c :: rest) = runSubs
          { s with
            subscriptions := s.subscriptions ++
              [{ id := toId c.2 c.1, channel := c.1, market := c.2,
                 done := s.nextSignal }],
            nextSignal := s.nextSignal + 1,
            wire := s.wire ++ [OutMsg.sub c.2 c.1] } rest := by
        simp [runSubs, subscribe_connected_new s c.1 c.2 h hf]
      have hkeys : addKeys (s.subscriptions.map (fun t => t.id)) (c :: rest) =
          addKeys (s.subscriptions.map (fun t => t.id) ++ [toId c.2 c.1]) rest := by
        simp [addKeys, hneg]
      rw [hstep, hkeys]
      have hres := ih
        { s with
          subscriptions := s.subscriptions ++
            [{ id := toId c.2 c.1, channel := c.1, market := c.2,
               done := s.nextSignal }],
          nextSignal := s.nextSignal + 1,
          wire := s.wire ++ [OutMsg.sub c.2 c.1] } (by simp [h])
      simpa using hres

/-- A connected state with an empty registry. -/
def stateConnW : ConnState := { initState with connected := true }

/-- C3 counterexample: the call sequence
`subscribe("B","A"); subscribe("B","A"); subscribe("A::B")` contains a
repeated pair and two distinct `(market, channel)` pairs, yet the
registry ends with a single entry: the de-duplication key is the topic
key, and the distinct pair `(none, "A::B")` collides with
`(some "A", "B")`. -/
theorem subscribe_pair_registry_cex :
    (runSubs stateConnW
      [("B", some "A"), ("B", some "A"), ("A::B", none)]).subscriptions.length = 1 ∧
    (("B", some "A") : String × Option String) ≠ ("A::B", none) := by
  decide

/-- C3 (amended): for every sequence of `subscribe(channel, market)`
calls on a connected state, the registry ends with exactly one entry per
distinct topic key `toId market channel` (its keys are the fold that
appends each call's key unless already present, hence duplicate-free
when they start duplicate-free), and any call whose topic key is already
registered is rejected as a logged no-op returning the state unchanged —
no entry added, no wire operation sent. -/
theorem runSubs_one_entry_per_topic_key (s : ConnState)
    (calls : List (String × Option String)) (h : s.connected = true) :
    (runSubs s calls).subscriptions.map (fun t => t.id) =
      addKeys (s.subscriptions.map (fun t => t.id)) calls ∧
    ((s.subscriptions.map (fun t => t.id)).Nodup →
      ((runSubs s calls).subscriptions.map (fun t => t.id)).Nodup) ∧
    (∀ channel market,
      (s.subscriptions.map (fun t => t.id)).contains (toId market channel) = true →
      subscribe s channel market = SubscribeOutcome.duplicate s) := by
  refine ⟨(runSubs_ids calls s h).1, fun hnd => ?_, fun channel market hmem =>
    subscribe_connected_dup s channel market h hmem⟩
  rw [(runSubs_ids calls s h).1]
  exact addKeys_nodup calls _ hnd

/-- C3 witness: two identical calls leave a single registry entry. -/
theorem runSubs_one_entry_per_topic_key_witness :
    (runSubs stateConnW [("ticker", none), ("ticker", none)]).subscriptions.map
        (fun t => t.id) =
      addKeys (stateConnW.subscriptions.map (fun t => t.id))
        [("ticker", none), ("ticker", none)] :=
  (runSubs_one_entry_per_topic_key stateConnW
    [("ticker", none), ("ticker", none)] rfl).1

theorem connect_from_closed (hmac : String → String → String) (now : Nat)
    (s : ConnState) (h : s.connected = false) :
    connect hmac now s =
      if truthy s.key then
        { s with
          connected := true,
          authenticated := true,
          wire := s.wire ++
            [OutMsg.login s.key
              (hmac s.secret (toString now ++ "websocket_login"))
              now s.subaccount] }
      else { s with connected := true } := by
  have h1 : wsConnect s = { s with connected := true } := by
    simp [wsConnect, h]
  by_cases hkey : truthy s.key = true
  · have hauth := authenticate_sends_login hmac now { s with connected := true } rfl
    simp [connect, h1, hkey, hauth]
  · have hk : truthy s.key = false := by simpa using hkey
    simp [connect, h1, hk]

/-- C5: from a closed transport (`connected = false`, the state the
close handler leaves), the reconnect step reopens the transport and
extends the wire by, in this order: the login frame when credentials are
configured, then one subscribe op per stored subscription in the
original registration order, then the payloads of the senders that were
parked on the reconnect-completed signal (they resume only after the
synchronous replay loop).  Under the registry invariant (each stored id
is the topic key of its pair) unique ids make the replay block
duplicate-free, so each subscription is re-sent exactly once. -/
theorem reconnect_replays_in_order (hmac : String → String → String)
    (now : Nat) (pending : List OutMsg) (s : ConnState)
    (hclosed : s.connected = false)
    (hids : ∀ sub ∈ s.subscriptions, sub.id = toId sub.market sub.channel) :
    (reconnect hmac now pending s).wire = s.wire ++
      (if truthy s.key then
        [OutMsg.login s.key
          (hmac s.secret (toString now ++ "websocket_login"))
          now s.subaccount]
      else []) ++
      s.subscriptions.map (fun sub => OutMsg.sub sub.market sub.channel) ++
      pending ∧
    ((s.subscriptions.map (fun t => t.id)).Nodup →
      (s.subscriptions.map
        (fun sub => OutMsg.sub sub.market sub.channel)).Nodup) := by
  constructor
  · unfold reconnect
    dsimp only
    have hconn := connect_from_closed hmac now
      { s with reconnecting := true, pingAt := 0, pongAt := 0 }
      (by simpa using hclosed)
    rw [hconn]
    by_cases hkey : truthy s.key = true
    · rw [if_pos (by simpa using hkey), if_pos hkey, replayAll_spec _ rfl]
    · have hk : truthy s.key = false := by simpa using hkey
      rw [if_neg (by simpa using hkey), if_neg (by simpa using hkey),
        replayAll_spec _ rfl]
      simp [List.append_assoc]
  · intro hnd
    have hmapeq : s.subscriptions.map (fun t => t.id) =
        (s.subscriptions.map
          (fun sub => OutMsg.sub sub.market sub.channel)).map
          (fun m => match m with
            | OutMsg.sub mk ch => toId mk ch
            | _ => "") := by
      rw [List.map_map]
      exact List.map_congr_left (fun a ha => by simp [Function.comp, hids a ha])
    rw [hmapeq] at hnd
    exact List.Nodup.of_map _ hnd

/-- A disconnected state (as left by the close handler) holding two
registered subscriptions, used to witness the replay ordering. -/
def stateRecon : ConnState :=
  { initState with
    subscriptions :=
      [{ id := toId (some "BTC-PERP") "ticker", channel := "ticker",
         market := some "BTC-PERP", done := 0 },
       { id := toId none "markets", channel := "markets", market := none,
         done := 1 }],
    nextSignal := 2 }

/-- C5 witness: both subscriptions are replayed, in order, before the
queued caller send. -/
theorem reconnect_replays_in_order_witness :
    (reconnect (fun a b => a ++ b) 7 [OutMsg.user 7] stateRecon).wire =
      stateRecon.wire ++
        (if truthy stateRecon.key then
          [OutMsg.login stateRecon.key
            ((fun a b => a ++ b) stateRecon.secret
              (toString 7 ++ "websocket_login"))
            7 stateRecon.subaccount]
        else []) ++
        stateRecon.subscriptions.map
          (fun sub => OutMsg.sub sub.market sub.channel) ++
        [OutMsg.user 7] :=
  (reconnect_replays_in_order (fun a b => a ++ b) 7 [OutMsg.user 7] stateRecon
    rfl (by decide)).1
